import Mathlib

/-!
# Verification of the crowd lifecycle simulation engine

Shallow embedding of the event-lifecycle crowd simulator
(`src/simulation/lifecycle_core.py` and `src/simulation/time_converter.py`).

Modelling conventions:
* Python `int` coordinates are embedded as `Int` (all positions stay in
  bounds along the code paths exercised here, so numpy's negative-index
  wrap-around never fires).
* Sets of cells (`initial_occupied`, `next_occupied`) are embedded as lists
  used only through membership, which matches Python `set` semantics for the
  operations the source performs (`in`, `add`).
* The three sources of randomness (the per-step `np.random.shuffle` of the
  processing order, the per-agent `np.random.rand()` draw in the density
  check, and the per-attendee `np.random.random()` roll in the mid-event
  reassignment) are passed in explicitly: a processing order `perm : List Nat`
  (indices into the attendee list) and oracles `rand roll : Nat → Rat`.
* Python floats only appear as exact small rationals here (`count / total`,
  `x / scale_factor`, `sqrt` of integer squares); every comparison the source
  makes on them is decided identically on the exact rationals, so the
  embedding uses `Rat`.  Euclidean distances are compared through their
  squares (`sqrt` is strictly monotone, so `argmin` is unchanged).
-/

/-- First minimiser of `f` in a list, keeping the earlier element on ties.
This is the common semantics of `np.argmin` (first occurrence of the minimum)
and of Python's builtin `min` (first minimal element). -/
def argminFirst {α β : Type} [LinearOrder β] (f : α → β) : List α → Option α
  | [] => none
  | x :: xs => some (xs.foldl (fun b c => if f c < f b then c else b) x)

/-- `isFirstMin f l b`: `b` occurs in `l`, every element strictly before that
occurrence has strictly larger `f`-value, and every element after it has
`f`-value `≥ f b`.  This characterises "the first minimiser". -/
def isFirstMin {α β : Type} [LinearOrder β] (f : α → β) (l : List α) (b : α) : Prop :=
  ∃ l1 l2, l = l1 ++ b :: l2 ∧ (∀ y ∈ l1, f b < f y) ∧ (∀ y ∈ l2, f b ≤ f y)

/-! ## The venue map

`map_data` is the numpy integer grid.  Cell legend (from
`_find_key_locations`): `0 = open space`, `1 = wall`, `2 = destination`,
`3 = entrance gate`, `4 = exit gate`. -/

/-- The venue map: row-major list of rows of integer cell codes
(the numpy 2-D `map_data` array; all rows have equal length). -/
abbrev VenueMap : Type := List (List Nat)

/-- `map_data.shape[0]`. -/
def rowsOf (m : VenueMap) : Nat := List.length m

/-- `map_data.shape[1]`. -/
def colsOf (m : VenueMap) : Nat := (List.headD m []).length

/-- `map_data[x, y]`.  Out-of-range reads default to `1` (wall); the source
only reads in-bounds positions on the modelled paths, so the default never
matters (numpy's negative-index wrap-around is likewise never exercised). -/
def cellAt (m : VenueMap) (x y : Int) : Nat :=
  if x < 0 ∨ y < 0 then 1 else (List.getD m x.toNat []).getD y.toNat 1

/-- `0 <= x < shape[0] and 0 <= y < shape[1]` (the bounds test of
`_find_best_neighbor`). -/
def inBoundsB (m : VenueMap) (x y : Int) : Bool :=
  decide (0 ≤ x) && decide (x < (rowsOf m : Int)) &&
    decide (0 ≤ y) && decide (y < (colsOf m : Int))

/-- `np.argwhere(self.map_data == code)` in row-major (C) order: the ordered
coordinate list backing the `entrances` / `exits` / `destinations` /
`open_space` registries of `_find_key_locations`. -/
def cellsWithCode (m : VenueMap) (code : Nat) : List (Int × Int) :=
  (List.enum m).flatMap fun (i, row) =>
    (List.enum row).filterMap fun (j, c) =>
      if c = code then some ((i : Int), (j : Int)) else none

/-! ## Attendees -/

/-- Modelled from the spec: the `Attendee` dataclass imported by
`lifecycle_core.py` from `simulation.models` is not present under `src/`
(the `models.py` in the tree holds an unrelated 4-neighbour agent).  Fields
and defaults follow spec §3 ("Attendee — id, position, goal,
status ∈ {Moving, ReachedGoal, Mingling, LeavingEarly, Evacuating, Exited},
total_wait_time_steps, entry_step, goal_reached_step") and the constructor
call in `_create_attendees` (`Attendee(id, x, y, entry_time_step, goal)`).
Statuses are the literal strings used by `lifecycle_core.py`; the initial
status (spec: `Moving`) is the string `"moving"`. -/
structure Attendee where
  id : Nat
  x : Int
  y : Int
  entry_time_step : Nat
  goal : Option (Int × Int)
  status : String := "moving"
  goal_reached_step : Option Nat := none
  total_wait_time_steps : Nat := 0
deriving DecidableEq, Repr

/-! ## `_find_best_neighbor` -/

/-- The 8 Moore offsets in the source's enumeration order:
`for dx in [-1, 0, 1]: for dy in [-1, 0, 1]:` skipping `(0, 0)`. -/
def mooreOffsets : List (Int × Int) :=
  [(-1, -1), (-1, 0), (-1, 1), (0, -1), (0, 1), (1, -1), (1, 0), (1, 1)]

/-- The `neighbors` list of `_find_best_neighbor`: in-bounds, non-wall Moore
neighbours of `pos`, in enumeration order. -/
def neighborCells (m : VenueMap) (pos : Int × Int) : List (Int × Int) :=
  (mooreOffsets.map fun d => (pos.1 + d.1, pos.2 + d.2)).filter
    fun q => inBoundsB m q.1 q.2 && decide (cellAt m q.1 q.2 ≠ 1)

/-- Squared Euclidean distance.  The source compares
`np.sqrt((nx-gx)**2 + (ny-gy)**2)`; `sqrt` is strictly monotone, so
`np.argmin` over the square roots selects the same index as over the
squares, which we compare exactly. -/
def sqDist (g q : Int × Int) : Int :=
  (q.1 - g.1) ^ 2 + (q.2 - g.2) ^ 2

/-- `_find_best_neighbor(attendee, occupied)`: the unoccupied in-bounds
non-wall Moore neighbour closest (Euclidean) to the goal, first such on
ties (`np.argmin` keeps the first occurrence); `none` when every candidate
is occupied or out of reach. -/
def find_best_neighbor (m : VenueMap) (occupied : List (Int × Int))
    (pos goal : Int × Int) : Option (Int × Int) :=
  let unoccupied := (neighborCells m pos).filter fun q => !occupied.contains q
  argminFirst (sqDist goal) unoccupied

/-! ## `_calculate_local_density` -/

/-- `range(lo, hi)` over `Int`. -/
def intRange (lo hi : Int) : List Int :=
  (List.range (hi - lo).toNat).map fun k => lo + (k : Int)

/-- `_calculate_local_density(x, y, occupied, radius=2)`: fraction of
occupied non-wall cells in the `(2·radius+1)²` Chebyshev window clipped to
the grid; `0` when the window holds no non-wall cell.  The float quotient
`count / total` is exact at these magnitudes and is written `mkRat` (the
same rational value in kernel-computable form; so are the other rational
constants below). -/
def calculate_local_density (m : VenueMap) (x y : Int)
    (occupied : List (Int × Int)) : Rat :=
  let window :=
    (intRange (max 0 (x - 2)) (min (rowsOf m : Int) (x + 2 + 1))).flatMap fun i =>
      (intRange (max 0 (y - 2)) (min (colsOf m : Int) (y + 2 + 1))).map fun j => (i, j)
  let nonWall := window.filter fun p => decide (cellAt m p.1 p.2 ≠ 1)
  let total := nonWall.length
  let count := (nonWall.filter fun p => occupied.contains p).length
  if total > 0 then mkRat count total else 0

/-! ## Simulation state

`FullEventLifecycleSimulation`'s mutable fields that the modelled methods
read or write.  `entry_rush_end` and `mid_event_end` are the precomputed
`timeline_steps` (they may be negative, being `to_step` of config times).
The `exits`/`destinations` registries of `_find_key_locations` are
recomputed from `map_data` at use sites; this is equivalent because the
source computes them once from the same, never-mutated array. -/
structure SimState where
  map_data : VenueMap
  attendees : List Attendee
  current_step : Nat
  entry_rush_end : Int
  mid_event_end : Int
  total_attendees : Nat
  successful_entries : Nat
  entry_progress : List Rat
  max_wait_time : Nat
deriving DecidableEq

/-- `_get_current_phase`. -/
def get_current_phase (s : SimState) : String :=
  if (s.current_step : Int) ≤ s.entry_rush_end then "entry_rush"
  else if (s.current_step : Int) ≤ s.mid_event_end then "mid_event"
  else "evacuation"

/-! ## `_update_goals_for_phase` -/

/-- The evacuation-branch body (lines 108–112): status `"evacuating"`, goal
the nearest exit by Manhattan distance (Python `min`: first minimal exit in
registry order), `goal_reached_step` reset.  With no exit cell the source
raises from `min`; that path is modelled as leaving goal untouched and is
never exercised here. -/
def evacuateAttendee (m : VenueMap) (a : Attendee) : Attendee :=
  match argminFirst (fun e => (e.1 - a.x).natAbs + (e.2 - a.y).natAbs)
      (cellsWithCode m 4) with
  | some e => { a with status := "evacuating", goal := some e, goal_reached_step := none }
  | none => { a with status := "evacuating" }

/-- The mid-event early-leaver branch (lines 120–123): same nearest-exit
goal, status `"leaving_early"`. -/
def leaveEarlyAttendee (m : VenueMap) (a : Attendee) : Attendee :=
  match argminFirst (fun e => (e.1 - a.x).natAbs + (e.2 - a.y).natAbs)
      (cellsWithCode m 4) with
  | some e => { a with status := "leaving_early", goal := some e, goal_reached_step := none }
  | none => { a with status := "leaving_early" }

/-- The mid-event destination branch (lines 126–129):
`destinations[attendee.id % len(destinations)]`, status `"mingling"`.  With
no destination cell the source raises (`% 0`); modelled as no change and
never exercised here. -/
def mingleAttendee (m : VenueMap) (a : Attendee) : Attendee :=
  let ds := cellsWithCode m 2
  match ds.get? (a.id % ds.length) with
  | some d => { a with status := "mingling", goal := some d, goal_reached_step := none }
  | none => a

/-- `_update_goals_for_phase(phase)`.  `roll i` is the `np.random.random()`
draw for the attendee at list position `i` in the mid-event loop.  The
source indexes `self.attendees[0]` unconditionally (raising on an empty
pool); the empty pool is modelled as a no-op and never exercised here. -/
def update_goals_for_phase (roll : Nat → Rat) (phase : String) (s : SimState) : SimState :=
  match s.attendees.head? with
  | none => s
  | some a0 =>
    if phase = "evacuation" ∧ a0.status ≠ "evacuating" then
      { s with attendees := s.attendees.map (evacuateAttendee s.map_data) }
    else if phase = "mid_event" ∧ a0.status ≠ "mingling" ∧ a0.status ≠ "leaving_early" then
      { s with attendees := (List.enum s.attendees).map fun (i, a) =>
          if roll i < mkRat 2 100 then leaveEarlyAttendee s.map_data a
          else mingleAttendee s.map_data a }
    else s

/-! ## `_move_attendees_smart` -/

/-- Line 132: `initial_occupied = {(a.x, a.y) for a in self.attendees}` —
the cells of **all** attendees, whatever their status. -/
def initialOccupied (attendees : List Attendee) : List (Int × Int) :=
  attendees.map fun a => (a.x, a.y)

/-- Line 133: the initial `next_occupied` — cells of attendees whose goal is
`None` or already reached (again with no status filter). -/
def initialClaimed (attendees : List Attendee) : List (Int × Int) :=
  (attendees.filter fun a => a.goal = none || a.goal = some (a.x, a.y)).map
    fun a => (a.x, a.y)

/-- The mutable locals of one `_move_attendees_smart` call. -/
structure MoveSt where
  attendees : List Attendee
  next_occupied : List (Int × Int)
  successful_entries : Nat
  entry_progress : List Rat
  max_wait_time : Nat
deriving DecidableEq

/-- One iteration of the agent loop (lines 138–171) for the attendee at
list index `i`.  `rand i` is the `np.random.rand()` draw of the density
check.  Mirrors the source order: skip if no goal / at goal; density &
best-neighbour; blocked bookkeeping; entry-crossing bookkeeping; commit the
move; arrival handling; exit handling. -/
def processAgent (m : VenueMap) (total current_step : Nat)
    (initOcc : List (Int × Int)) (rand : Nat → Rat) (st : MoveSt) (i : Nat) : MoveSt :=
  match st.attendees.get? i with
  | none => st
  | some a =>
    match a.goal with
    | none => st
    | some g =>
      if (a.x, a.y) = g then st
      else
        let density := calculate_local_density m a.x a.y initOcc
        let best := find_best_neighbor m st.next_occupied (a.x, a.y) g
        if (density > mkRat 6 10 ∧ rand i < density) ∨ best = none then
          let a1 := { a with total_wait_time_steps := a.total_wait_time_steps + 1 }
          { st with
            attendees := st.attendees.set i a1
            max_wait_time := max st.max_wait_time a1.total_wait_time_steps
            next_occupied := (a.x, a.y) :: st.next_occupied }
        else
          match best with
          | none => st
          | some b =>
            let crossed := cellAt m a.x a.y = 3 ∧ cellAt m b.1 b.2 = 0
            let se := if crossed then st.successful_entries + 1 else st.successful_entries
            let ep := if crossed then
                st.entry_progress ++ [mkRat (se * 100) total]
              else st.entry_progress
            let a1 := { a with x := b.1, y := b.2 }
            let a2 := if some b = a1.goal ∧ a1.goal_reached_step = none then
                { a1 with goal_reached_step := some current_step, status := "reached_goal" }
              else a1
            let a3 := if (a2.status = "evacuating" ∨ a2.status = "leaving_early")
                ∧ cellAt m b.1 b.2 = 4 then
                { a2 with status := "exited" }
              else a2
            { st with
              attendees := st.attendees.set i a3
              next_occupied := b :: st.next_occupied
              successful_entries := se
              entry_progress := ep }

/-- `_move_attendees_smart()`.  `perm` is the order `np.random.shuffle`
produced (a permutation of the attendee indices).  The trailing `for`/`else`
of the source (line 172–173) only mutates the local `next_occupied`, which
is discarded when the call returns, so it has no observable effect and is
not modelled. -/
def move_attendees_smart (rand : Nat → Rat) (perm : List Nat) (s : SimState) : SimState :=
  let initOcc := initialOccupied s.attendees
  let st0 : MoveSt :=
    ⟨s.attendees, initialClaimed s.attendees, s.successful_entries,
      s.entry_progress, s.max_wait_time⟩
  let st := perm.foldl (processAgent s.map_data s.total_attendees s.current_step initOcc rand) st0
  { s with
    attendees := st.attendees
    successful_entries := st.successful_entries
    entry_progress := st.entry_progress
    max_wait_time := st.max_wait_time }

/-- `run_lifecycle_step()` (state mutation only; the returned
grid/metrics/phase/real-time tuple is reconstructed by the accessors
below). -/
def run_lifecycle_step (roll rand : Nat → Rat) (perm : List Nat) (s : SimState) : SimState :=
  let s1 := { s with current_step := s.current_step + 1 }
  let phase := get_current_phase s1
  move_attendees_smart rand perm (update_goals_for_phase roll phase s1)

/-- The external driver: `n` consecutive `run_lifecycle_step` calls, with
per-step randomness `roll k`, `rand k`, `perm k` for the `k`-th call. -/
def runSteps (roll rand : Nat → Nat → Rat) (perm : Nat → List Nat) :
    Nat → SimState → SimState
  | 0, s => s
  | n + 1, s =>
    runSteps (fun k => roll (k + 1)) (fun k => rand (k + 1)) (fun k => perm (k + 1)) n
      (run_lifecycle_step (roll 0) (rand 0) (perm 0) s)

/-- The trajectory of `runSteps`: the initial state followed by the state
after each of the `n` calls. -/
def runTrace (roll rand : Nat → Nat → Rat) (perm : Nat → List Nat) :
    Nat → SimState → List SimState
  | 0, s => [s]
  | n + 1, s =>
    s :: runTrace (fun k => roll (k + 1)) (fun k => rand (k + 1)) (fun k => perm (k + 1)) n
      (run_lifecycle_step (roll 0) (rand 0) (perm 0) s)

/-! ## `TimeConverter` (`src/simulation/time_converter.py`)

`"HH:MM"` strings are modelled character-exactly.  `strptime("%H:%M")`
validates hour `< 24` and minute `< 60`; we model the zero-padded two-digit
form, which is the format the spec names and the only form `strftime`
produces (so the only form on which an inverse is even possible). -/

/-- Value of a decimal digit character. -/
def charVal (c : Char) : Option Nat :=
  if c = '0' then some 0 else if c = '1' then some 1 else if c = '2' then some 2
  else if c = '3' then some 3 else if c = '4' then some 4 else if c = '5' then some 5
  else if c = '6' then some 6 else if c = '7' then some 7 else if c = '8' then some 8
  else if c = '9' then some 9 else none

/-- Decimal digit character of a value `< 10`. -/
def digitOf (d : Nat) : Char :=
  match d with
  | 0 => '0' | 1 => '1' | 2 => '2' | 3 => '3' | 4 => '4'
  | 5 => '5' | 6 => '6' | 7 => '7' | 8 => '8' | _ => '9'

/-- `datetime.strptime(s, "%H:%M")`, reduced to minutes past midnight
(the only datetime content the converter uses; both endpoints share the
same dummy date). -/
def parseHHMM (s : String) : Option Nat :=
  match s.data with
  | [h1, h2, colon, m1, m2] =>
    if colon = ':' then
      match charVal h1, charVal h2, charVal m1, charVal m2 with
      | some a, some b, some d, some e =>
        let hh := 10 * a + b
        let mm := 10 * d + e
        if hh < 24 ∧ mm < 60 then some (hh * 60 + mm) else none
      | _, _, _, _ => none
    else none
  | _ => none

/-- `strftime("%H:%M")` of a time `mins` minutes past midnight
(`mins < 1440`). -/
def formatHHMM (mins : Nat) : String :=
  let hh := mins / 60
  let mm := mins % 60
  String.mk [digitOf (hh / 10), digitOf (hh % 10), ':', digitOf (mm / 10), digitOf (mm % 10)]

/-- Python `int(x)`: truncation toward zero. -/
def truncToInt (q : Rat) : Int :=
  if 0 ≤ q then ⌊q⌋ else -⌊-q⌋

/-- `TimeConverter(start_time_str, scale_factor)`: `start_minutes` is the
parsed `start_time` in minutes past midnight. -/
structure TimeConverter where
  start_minutes : Nat
  scale_factor : Int
deriving DecidableEq

/-- `to_step(time_str)`: `int(delta_minutes * scale_factor)` where
`delta_minutes = (event_time - start_time).total_seconds() / 60` (exact here:
both datetimes are whole minutes of the same day, and the float arithmetic
on these magnitudes is exact).  `none` models the `strptime` exception. -/
def to_step (tc : TimeConverter) (time_str : String) : Option Int :=
  (parseHHMM time_str).map fun (t : Nat) =>
    truncToInt ((((t : Int) - (tc.start_minutes : Int) : Int) : Rat) * (tc.scale_factor : Rat))

/-- `to_real_time(step)`: `start_time + timedelta(minutes=step/scale_factor)`
rendered with `strftime("%H:%M")`, i.e. the floor of the resulting absolute
minute count, modulo one day (crossing midnight wraps — the day number is
not printed).  `timedelta` rounds its argument to microseconds; that rounding
can only matter within half a microsecond of a minute boundary and the claims
evaluated here use exactly-representable values, so it is not modelled. -/
def to_real_time (tc : TimeConverter) (step : Int) : String :=
  let minutes_elapsed : Rat := (step : Rat) / (tc.scale_factor : Rat)
  let total : Rat := (tc.start_minutes : Rat) + minutes_elapsed
  formatHHMM ((⌊total⌋ % 1440).toNat)

/-! ## Metrics (`get_current_metrics`, lines 241–248)

Only the wait-time distribution is claim-relevant. -/

/-- `np.histogram(wait_times, bins=[0, 5, 10, 15, inf])`: counts in
`[0,5)`, `[5,10)`, `[10,15)`, `[15,inf]` (the values are `Nat`s, so the
closed lower end of the first bin is vacuous). -/
def histogramCounts (ws : List Nat) : List Nat :=
  [ws.countP fun w => decide (w < 5),
   ws.countP fun w => decide (5 ≤ w ∧ w < 10),
   ws.countP fun w => decide (10 ≤ w ∧ w < 15),
   ws.countP fun w => decide (15 ≤ w)]

/-- The `wait_time_distribution` entry of `get_current_metrics`:
`wait_times` are the raw `total_wait_time_steps` (no unit conversion), and
the dict comprehension runs over `hist[:-1]`, i.e. drops the `[15,inf]`
count.  Python dicts keep insertion order, so an ordered association list
is a faithful image. -/
def wait_time_distribution (s : SimState) : List (String × Nat) :=
  let wait_times := s.attendees.map (fun a => a.total_wait_time_steps)
  if wait_times.isEmpty then []
  else List.zip ["0-5min", "5-10min", "10-15min"] (histogramCounts wait_times).dropLast

/-- Stated from the claim's words, for comparison with the source: the
four-bin histogram of wait times **in minutes** (`steps / scale_factor`)
over `[0,5)`, `[5,10)`, `[10,15)`, `[15,∞)`. -/
def claimWaitHistogramMinutes (scale_factor : Nat) (s : SimState) : List Nat :=
  let mins : List Rat := s.attendees.map (fun a => mkRat a.total_wait_time_steps scale_factor)
  [mins.countP fun w => decide (w < 5),
   mins.countP fun w => decide (5 ≤ w ∧ w < 10),
   mins.countP fun w => decide (10 ≤ w ∧ w < 15),
   mins.countP fun w => decide (15 ≤ w)]

/-- Stated from the claim's words, for comparison with the source: the
occupancy snapshot as "the set of cells occupied by non-Exited attendees". -/
def claimOccupancySnapshot (attendees : List Attendee) : List (Int × Int) :=
  (attendees.filter fun a => a.status ≠ "exited").map fun a => (a.x, a.y)

/-- The blocked test of line 147 (density hesitation or no free
neighbour), as a proposition on the loop state, for stating the blocking
bookkeeping. -/
def blockedTest (m : VenueMap) (initOcc : List (Int × Int)) (rand : Nat → Rat)
    (st : MoveSt) (i : Nat) (a : Attendee) (g : Int × Int) : Prop :=
  (calculate_local_density m a.x a.y initOcc > mkRat 6 10 ∧
    rand i < calculate_local_density m a.x a.y initOcc) ∨
  find_best_neighbor m st.next_occupied (a.x, a.y) g = none

/-! ## Concrete fixtures

Small states used by the concrete theorems below.  Each is a literal
well-formed simulation state (positions in bounds, off walls). -/

/-- A 1×2 map: open space next to an exit gate. -/
def exitMap : VenueMap := [[0, 4]]

/-- An evacuating attendee one step away from its goal, which is the exit
gate of `exitMap`. -/
def evacAtt : Attendee :=
  { id := 0, x := 0, y := 0, entry_time_step := 0, goal := some (0, 1),
    status := "evacuating" }

/-- State holding just `evacAtt`, mid-evacuation. -/
def evacState : SimState :=
  { map_data := exitMap, attendees := [evacAtt], current_step := 1,
    entry_rush_end := -1, mid_event_end := -1, total_attendees := 1,
    successful_entries := 0, entry_progress := [], max_wait_time := 0 }

/-- A 2×2 map with three exit-gate cells and one open cell: an evacuating
attendee at `(1, 1)` whose goal is `(0, 1)` can be pushed over the
different exit `(0, 0)` and genuinely exit (the arrival handling does not
interfere there, since `(0, 0)` is not its goal). -/
def twoExitMap : VenueMap := [[4, 4], [4, 0]]

/-- Two freshly created attendees: one on the open corner, one parked on
the exit `(0, 1)` (which evacuation makes its own zero-distance goal, so
it claims that cell). -/
def cornerAttendees : List Attendee :=
  [{ id := 0, x := 1, y := 1, entry_time_step := 0, goal := none },
   { id := 1, x := 0, y := 1, entry_time_step := 0, goal := none }]

/-- Evacuation-from-step-0 state on `twoExitMap`. -/
def twoExitState : SimState :=
  { map_data := twoExitMap, attendees := cornerAttendees, current_step := 0,
    entry_rush_end := -1, mid_event_end := -1, total_attendees := 2,
    successful_entries := 0, entry_progress := [], max_wait_time := 0 }

/-- A fresh attendee already at its entry-rush goal, on a map with a
destination at `(0, 1)` and an exit at `(0, 2)`. -/
def destAtt : Attendee :=
  { id := 0, x := 0, y := 0, entry_time_step := 0, goal := some (0, 0) }

/-- Mid-event-from-step-1 state (`entry_rush_end = 0`, `mid_event_end = 10`)
holding just `destAtt`. -/
def destState : SimState :=
  { map_data := [[0, 2, 4]], attendees := [destAtt], current_step := 0,
    entry_rush_end := 0, mid_event_end := 10, total_attendees := 1,
    successful_entries := 0, entry_progress := [], max_wait_time := 0 }

/-- A 3×3 open map with an exit gate at `(0, 1)`. -/
def snapMap : VenueMap := [[0, 4, 0], [0, 0, 0], [0, 0, 0]]

/-- Two attendees: one exited on the exit gate `(0, 1)`, one still moving at
`(2, 2)`. -/
def snapAttendees : List Attendee :=
  [{ id := 0, x := 0, y := 1, entry_time_step := 0, goal := some (0, 1),
     status := "exited", goal_reached_step := some 2 },
   { id := 1, x := 2, y := 2, entry_time_step := 0, goal := some (0, 0),
     status := "moving" }]

/-- State with one exited and one moving attendee (for the occupancy
snapshot and wait-histogram claims). -/
def snapState : SimState :=
  { map_data := snapMap, attendees := snapAttendees, current_step := 5,
    entry_rush_end := -1, mid_event_end := -1, total_attendees := 2,
    successful_entries := 0, entry_progress := [], max_wait_time := 0 }

/-- Two attendees with accumulated waits of 7 and 20 steps. -/
def histState : SimState :=
  { map_data := [[0]],
    attendees :=
      [{ id := 0, x := 0, y := 0, entry_time_step := 0, goal := none,
         total_wait_time_steps := 7 },
       { id := 1, x := 0, y := 0, entry_time_step := 0, goal := none,
         total_wait_time_steps := 20 }],
    current_step := 50, entry_rush_end := 0, mid_event_end := 0,
    total_attendees := 2, successful_entries := 0, entry_progress := [],
    max_wait_time := 20 }

/-- A 1×1 map: a lone open cell. -/
def soloMap : VenueMap := [[0]]

/-- An attendee on `soloMap` whose goal is unreachable (no in-bounds
neighbour exists), so `_find_best_neighbor` returns `None`. -/
def soloAtt : Attendee :=
  { id := 0, x := 0, y := 0, entry_time_step := 0, goal := some (2, 2) }

/-- The loop state of `_move_attendees_smart` over just `soloAtt`. -/
def soloMoveSt : MoveSt :=
  { attendees := [soloAtt], next_occupied := [], successful_entries := 0,
    entry_progress := [], max_wait_time := 0 }

/-- A 1×5 open corridor. -/
def rowMap : VenueMap := [[0, 0, 0, 0, 0]]

/-- Attendee 0 sits at its goal `(0, 0)`. -/
def rowAttGoal : Attendee :=
  { id := 0, x := 0, y := 0, entry_time_step := 0, goal := some (0, 0),
    status := "reached_goal", goal_reached_step := some 1 }

/-- Attendee 1 at `(0, 1)` wants to reach `(0, 0)`. -/
def rowAttMoving : Attendee :=
  { id := 1, x := 0, y := 1, entry_time_step := 0, goal := some (0, 0),
    status := "moving" }

/-- Attendee 1 after one `_move_attendees_smart` step: `(0, 0)` is claimed
by attendee 0, so it moves to the other free neighbour `(0, 2)`. -/
def rowAttMoved : Attendee :=
  { id := 1, x := 0, y := 2, entry_time_step := 0, goal := some (0, 0),
    status := "moving" }

/-- The two attendees of the claimed-cell witness. -/
def rowAttendees : List Attendee := [rowAttGoal, rowAttMoving]

/-- State for the claimed-cell witness. -/
def rowState : SimState :=
  { map_data := rowMap, attendees := rowAttendees, current_step := 2,
    entry_rush_end := 10, mid_event_end := 20, total_attendees := 2,
    successful_entries := 0, entry_progress := [], max_wait_time := 0 }

/-- Scenario B of the spec, at minimal size: a 4×4 grid whose single exit
gate is `(0, 0)`, everything else open, no obstruction. -/
def evacGrid : VenueMap :=
  [[4, 0, 0, 0],
   [0, 0, 0, 0],
   [0, 0, 0, 0],
   [0, 0, 0, 0]]

/-- Twenty cells scattered over `evacGrid`: every non-exit cell is used,
the four corner-adjacent ones twice (the simulator allows co-located
attendees; density is modelled, not hard collision). -/
def scatterCells : List (Int × Int) :=
  [(0, 1), (0, 2), (0, 3), (1, 0), (1, 1),
   (1, 2), (1, 3), (2, 0), (2, 1), (2, 2),
   (2, 3), (3, 0), (3, 1), (3, 2), (3, 3),
   (0, 3), (1, 0), (2, 3), (3, 0), (3, 3)]

/-- Twenty freshly created attendees on those cells (goals are assigned by
the evacuation branch of `_update_goals_for_phase` on the first step). -/
def scatterAttendees : List Attendee :=
  (List.enum scatterCells).map fun (i, p) =>
    { id := i, x := p.1, y := p.2, entry_time_step := 0, goal := none }

/-- Scenario B initial state: the timeline thresholds are behind step 0, so
every `run_lifecycle_step` call is in the evacuation phase. -/
def scenarioB : SimState :=
  { map_data := evacGrid, attendees := scatterAttendees, current_step := 0,
    entry_rush_end := -1, mid_event_end := -1, total_attendees := 20,
    successful_entries := 0, entry_progress := [], max_wait_time := 0 }

/-- A fixed draw for every density check: `0.99` (any value in `[0,1)` is a
possible `np.random.rand()` outcome). -/
def randNinetyNine : Nat → Nat → Rat := fun _ _ => mkRat 99 100

/-- The identity processing order on 20 agents (a possible
`np.random.shuffle` outcome each step). -/
def identityPerm20 : Nat → List Nat := fun _ => List.range 20

/-! ## Supporting lemmas: first minimisers -/

theorem isFirstMin_mem {α β : Type} [LinearOrder β] {f : α → β} {l : List α}
    {b : α} (h : isFirstMin f l b) : b ∈ l := by
  obtain ⟨l1, l2, rfl, -, -⟩ := h
  simp

theorem isFirstMin_le {α β : Type} [LinearOrder β] {f : α → β} {l : List α}
    {b : α} (h : isFirstMin f l b) : ∀ y ∈ l, f b ≤ f y := by
  obtain ⟨l1, l2, rfl, h1, h2⟩ := h
  intro y hy
  rcases List.mem_append.mp hy with hy1 | hy2
  · exact le_of_lt (h1 y hy1)
  · rcases List.mem_cons.mp hy2 with rfl | hy2'
    · exact le_refl _
    · exact h2 y hy2'

private theorem argminFirst_foldl_spec {α β : Type} [LinearOrder β] (f : α → β) :
    ∀ (xs : List α) (x : α),
      isFirstMin f (x :: xs) (xs.foldl (fun b c => if f c < f b then c else b) x)
  | [], x => ⟨[], [], rfl, by simp, by simp⟩
  | c :: cs, x => by
    have hstep : (c :: cs).foldl (fun b c => if f c < f b then c else b) x
        = cs.foldl (fun b c => if f c < f b then c else b) (if f c < f x then c else x) := rfl
    by_cases h : f c < f x
    case pos =>
      rw [hstep, if_pos h]
      have ih := argminFirst_foldl_spec f cs c
      obtain ⟨l1, l2, heq, h1, h2⟩ := ih
      have hrc : f (cs.foldl (fun b c => if f c < f b then c else b) c) ≤ f c :=
        isFirstMin_le ⟨l1, l2, heq, h1, h2⟩ c (by simp)
      refine ⟨x :: l1, l2, ?_, ?_, h2⟩
      · rw [List.cons_append, ← heq]
      · intro y hy
        rcases List.mem_cons.mp hy with rfl | hy'
        · exact lt_of_le_of_lt hrc h
        · exact h1 y hy'
    case neg =>
      rw [hstep, if_neg h]
      have ih := argminFirst_foldl_spec f cs x
      obtain ⟨l1, l2, heq, h1, h2⟩ := ih
      have hrx : f (cs.foldl (fun b c => if f c < f b then c else b) x) ≤ f x :=
        isFirstMin_le ⟨l1, l2, heq, h1, h2⟩ x (by simp)
      rcases l1 with _ | ⟨z, l1t⟩
      · -- the fold result is `x` itself, which stays the first minimiser
        have hx : x = cs.foldl (fun b c => if f c < f b then c else b) x := by
          simpa using congrArg List.head? heq
        have hcs : cs = l2 := by
          simpa using congrArg List.tail heq
        refine ⟨[], c :: cs, ?_, by simp, ?_⟩
        · rw [List.nil_append, ← hx]
        · intro y hy
          rcases List.mem_cons.mp hy with rfl | hy'
          · exact le_trans hrx (le_of_not_lt h)
          · exact h2 y (hcs ▸ hy')
      · -- the fold result sits inside `cs`; both `x` and `c` are strictly above it
        have hz : x = z := by
          simpa using congrArg List.head? heq
        subst hz
        have htail : cs = l1t ++ (cs.foldl (fun b c => if f c < f b then c else b) x) :: l2 := by
          simpa using congrArg List.tail heq
        have hrx' : f (cs.foldl (fun b c => if f c < f b then c else b) x) < f x :=
          h1 x (by simp)
        refine ⟨x :: c :: l1t, l2, ?_, ?_, h2⟩
        · simp only [List.cons_append]
          rw [← htail]
        · intro y hy
          rcases List.mem_cons.mp hy with rfl | hy'
          · exact hrx'
          · rcases List.mem_cons.mp hy' with rfl | hy''
            · exact lt_of_lt_of_le hrx' (le_of_not_lt h)
            · exact h1 y (by simp [hy''])

/-- Soundness of `argminFirst`: on a non-empty list it returns the first
minimiser. -/
theorem argminFirst_isFirstMin {α β : Type} [LinearOrder β] (f : α → β)
    (l : List α) (b : α) (h : argminFirst f l = some b) : isFirstMin f l b := by
  cases l with
  | nil => simp [argminFirst] at h
  | cons x xs =>
    have := argminFirst_foldl_spec f xs x
    simp only [argminFirst, Option.some.injEq] at h
    rwa [h] at this

theorem argminFirst_eq_none_iff {α β : Type} [LinearOrder β] (f : α → β)
    (l : List α) : argminFirst f l = none ↔ l = [] := by
  cases l <;> simp [argminFirst]

/-! ## Supporting lemmas: time conversion -/

theorem charVal_lt_ten {c : Char} {d : Nat} (h : charVal c = some d) : d < 10 := by
  unfold charVal at h
  split_ifs at h <;> simp_all <;> omega

theorem digitOf_charVal {c : Char} {d : Nat} (h : charVal c = some d) :
    digitOf d = c := by
  unfold charVal at h
  split_ifs at h <;> simp_all <;> subst h <;> rfl

/-- A successfully parsed string is exactly the zero-padded rendering of its
value, and the value is a time of day. -/
theorem formatHHMM_parseHHMM {t : String} {m : Nat} (h : parseHHMM t = some m) :
    formatHHMM m = t ∧ m < 1440 := by
  unfold parseHHMM at h
  split at h
  case h_2 => exact absurd h (by simp)
  case h_1 h1 h2 colon m1 m2 hdata =>
    split_ifs at h with hcolon
    · subst hcolon
      cases ha : charVal h1 with
      | none => rw [ha] at h; simp at h
      | some a =>
        cases hb : charVal h2 with
        | none => rw [ha, hb] at h; simp at h
        | some b =>
          cases hd : charVal m1 with
          | none => rw [ha, hb, hd] at h; simp at h
          | some d =>
            cases he : charVal m2 with
            | none => rw [ha, hb, hd, he] at h; simp at h
            | some e =>
              rw [ha, hb, hd, he] at h
              simp only at h
              split_ifs at h with hrange
              · obtain ⟨hh24, mm60⟩ := hrange
                have hm : (10 * a + b) * 60 + (10 * d + e) = m := by
                  simpa using h
                have hb10 : b < 10 := charVal_lt_ten hb
                have he10 : e < 10 := charVal_lt_ten he
                constructor
                · have h60 : m / 60 / 10 = a := by omega
                  have h61 : m / 60 % 10 = b := by omega
                  have h62 : m % 60 / 10 = d := by omega
                  have h63 : m % 60 % 10 = e := by omega
                  have ht : t = ⟨[h1, h2, ':', m1, m2]⟩ := by
                    cases t
                    exact congrArg String.mk (by simpa using hdata)
                  rw [ht]
                  show String.mk [digitOf (m / 60 / 10), digitOf (m / 60 % 10), ':',
                    digitOf (m % 60 / 10), digitOf (m % 60 % 10)] = String.mk [h1, h2, ':', m1, m2]
                  rw [h60, h61, h62, h63, digitOf_charVal ha, digitOf_charVal hb,
                    digitOf_charVal hd, digitOf_charVal he]
                · omega

theorem truncToInt_intCast (n : Int) : truncToInt ((n : Rat)) = n := by
  unfold truncToInt
  split_ifs with h
  · exact Int.floor_intCast n
  · rw [← Int.cast_neg, Int.floor_intCast]
    exact neg_neg n

/-- **C9**: `TimeConverter.to_step(t)` equals the minute difference
`t − start_time` multiplied by `scale_factor` (an integer, so truncation
toward zero is the identity on it; negative values for times before the
event start are allowed), and `to_real_time` inverts it at minute
granularity: for every valid `"HH:MM"` string on the same day and every
`scale_factor ≥ 1`, `to_real_time (to_step t) = t`. -/
theorem C9_time_conversion_roundtrip (tc : TimeConverter) (t : String) (m : Nat)
    (hparse : parseHHMM t = some m) (hscale : 1 ≤ tc.scale_factor) :
    to_step tc t = some (((m : Int) - (tc.start_minutes : Int)) * tc.scale_factor) ∧
    to_real_time tc (((m : Int) - (tc.start_minutes : Int)) * tc.scale_factor) = t := by
  obtain ⟨hfmt, hlt⟩ := formatHHMM_parseHHMM hparse
  have hsf : ((tc.scale_factor : Int) : Rat) ≠ 0 := by
    have h0 : (tc.scale_factor : Int) ≠ 0 := by omega
    exact_mod_cast h0
  constructor
  · unfold to_step
    rw [hparse, Option.map_some']
    congr 1
    have hcast : ((((m : Int) - (tc.start_minutes : Int) : Int) : Rat) * ((tc.scale_factor : Int) : Rat))
        = (((((m : Int) - (tc.start_minutes : Int)) * tc.scale_factor : Int)) : Rat) := by
      push_cast
      ring
    rw [hcast, truncToInt_intCast]
  · show formatHHMM
      ((⌊((tc.start_minutes : Nat) : Rat) +
          (((((m : Int) - (tc.start_minutes : Int)) * tc.scale_factor : Int) : Rat) /
            ((tc.scale_factor : Int) : Rat))⌋ % 1440).toNat) = t
    have htot : ((tc.start_minutes : Nat) : Rat) +
        (((((m : Int) - (tc.start_minutes : Int)) * tc.scale_factor : Int) : Rat) /
          ((tc.scale_factor : Int) : Rat)) = ((m : Nat) : Rat) := by
      field_simp
    rw [htot, Int.floor_natCast]
    have hmod : (((m : Nat) : Int) % 1440) = ((m : Nat) : Int) := by
      apply Int.emod_eq_of_lt
      · exact_mod_cast Nat.zero_le m
      · exact_mod_cast hlt
    rw [hmod, Int.toNat_natCast]
    exact hfmt

/-- Witness for C9 at `start_time = "09:00"`, `scale_factor = 2`,
`t = "10:30"` (so `m = 630` minutes): the step is `(630 − 540) · 2 = 180`
and the round trip returns `"10:30"`. -/
theorem C9_time_conversion_roundtrip_witness :
    to_step { start_minutes := 540, scale_factor := 2 } "10:30"
        = some ((((630 : Nat) : Int) - ((540 : Nat) : Int)) * 2) ∧
    to_real_time { start_minutes := 540, scale_factor := 2 }
        ((((630 : Nat) : Int) - ((540 : Nat) : Int)) * 2) = "10:30" :=
  C9_time_conversion_roundtrip { start_minutes := 540, scale_factor := 2 } "10:30" 630
    (by decide) (by decide)

/-! ## Supporting lemmas: neighbour selection -/

/-- A selected neighbour is never a currently claimed/occupied cell. -/
theorem find_best_neighbor_not_occupied {m : VenueMap} {occupied : List (Int × Int)}
    {pos goal b : Int × Int} (h : find_best_neighbor m occupied pos goal = some b) :
    b ∉ occupied := by
  have hmem := isFirstMin_mem (argminFirst_isFirstMin _ _ _ h)
  have := List.mem_filter.mp hmem
  simpa using this.2

/-- **C6**: for an attendee that consults `_find_best_neighbor`, the
candidate set is exactly the in-bounds, non-wall Moore neighbours not in
the claimed/occupied set; the result is `None` (the agent is blocked)
precisely when that set is empty, and otherwise it is the candidate
minimising Euclidean distance to the goal (compared through the squared
distance, which orders identically), ties resolving to the first candidate
in the fixed `dx, dy` enumeration order. -/
theorem C6_best_neighbor_selection (m : VenueMap) (occupied : List (Int × Int))
    (pos goal : Int × Int) :
    (find_best_neighbor m occupied pos goal = none ↔
      ((neighborCells m pos).filter fun q => !occupied.contains q) = []) ∧
    ∀ b, find_best_neighbor m occupied pos goal = some b →
      isFirstMin (sqDist goal) ((neighborCells m pos).filter fun q => !occupied.contains q) b := by
  constructor
  · exact argminFirst_eq_none_iff _ _
  · intro b hb
    exact argminFirst_isFirstMin _ _ _ hb

/-- Witness for C6 on the 2×2 map `[[0,0],[0,1]]` with `(1,1)` a wall,
position `(0,0)`, `(0,1)` claimed, goal `(1,1)`: the unique remaining
candidate `(1,0)` is selected and is the first minimiser. -/
theorem C6_best_neighbor_selection_witness :
    isFirstMin (sqDist (1, 1))
      ((neighborCells [[0, 0], [0, 1]] (0, 0)).filter
        fun q => !([((0 : Int), (1 : Int))].contains q))
      (1, 0) :=
  (C6_best_neighbor_selection [[0, 0], [0, 1]] [((0 : Int), (1 : Int))] (0, 0) (1, 1)).2
    (1, 0) (by decide)

/-! ## Concrete claim theorems -/

/-- **C1** is violated by the code: `evacAtt` has status `"evacuating"` at
the start of the step and its committed new cell `(0, 1)` is an `ExitGate`
(map code 4) — and is also its goal.  The arrival handling (line 164–166)
runs first and overwrites the status with `"reached_goal"`
unconditionally, so the exit-handling test (line 169) no longer sees
`"evacuating"` and the attendee ends the step `"reached_goal"`, not
`"exited"` as the claim requires. -/
theorem C1_goal_exit_clobbered :
    evacState.attendees.map (fun a => a.status) = ["evacuating"] ∧
    cellAt evacState.map_data 0 1 = 4 ∧
    evacState.attendees.map (fun a => a.goal) = [some (0, 1)] ∧
    ((move_attendees_smart (fun _ => 0) [0] evacState).attendees.map
      fun a => (a.status, a.x, a.y)) = [("reached_goal", 0, 1)] := by
  refine ⟨by decide, by decide, by decide, by decide⟩

/-- **C2** is violated by the code, on a run started from two freshly
created attendees (`twoExitState`, evacuation forced from step 0): on
step 1 attendee 0 moves onto the exit cell `(0, 0)` — not its goal, so the
arrival handling does not interfere — and becomes `"exited"`; on step 2
the evacuation guard of `_update_goals_for_phase` re-fires (because
`attendees[0].status` is no longer `"evacuating"`) and resets the exited
attendee to `"evacuating"`.  The Exited count over the trace is
`[0, 1, 0]`: not non-decreasing, and Exited is not terminal. -/
theorem C2_exited_status_reverted :
    ((runTrace (fun _ _ => mkRat 99 100) (fun _ _ => mkRat 99 100) (fun _ => [0, 1]) 2
        twoExitState).map
      (fun st => st.attendees.countP (fun a => a.status == "exited"))) = [0, 1, 0] ∧
    ((runTrace (fun _ _ => mkRat 99 100) (fun _ _ => mkRat 99 100) (fun _ => [0, 1]) 2
        twoExitState).map
      (fun st => st.attendees.map (fun a => a.status)))
      = [["moving", "moving"], ["exited", "evacuating"], ["evacuating", "evacuating"]] := by
  refine ⟨by decide, by decide⟩

/-- **C4** is violated by the code, on a run started from one freshly
created attendee (`destState`, mid-event from step 1): step 1 performs the
mid-event reassignment (roll `0.5 ≥ 0.02`, so destination goal and
`"mingling"`) and the attendee reaches the destination the same step, so
the arrival handling sets `"reached_goal"` and `goal_reached_step = 1`.
On step 2 — still mid-event — the guard of `_update_goals_for_phase`
re-fires because `attendees[0].status` is neither `"mingling"` nor
`"leaving_early"`, and the attendee is re-rolled: status back to
`"mingling"` and `goal_reached_step` reset to `None`.  The reassignment is
not performed exactly once. -/
theorem C4_midevent_reassignment_rerolled :
    get_current_phase { destState with current_step := 1 } = "mid_event" ∧
    get_current_phase { destState with current_step := 2 } = "mid_event" ∧
    ((runTrace (fun _ _ => mkRat 1 2) (fun _ _ => mkRat 99 100) (fun _ => [0]) 2 destState).map
      (fun st => st.attendees.map (fun a => (a.status, a.goal_reached_step))))
      = [[("moving", none)], [("reached_goal", some 1)], [("mingling", none)]] := by
  refine ⟨by decide, by decide, by decide⟩

/-- **C5** fails as stated: in `snapState` the exited attendee stands on
`(0, 1)`, no non-Exited attendee occupies `(0, 1)`, yet the snapshot the
code computes (line 132) contains `(0, 1)` — and so does the initial
claimed-cell set (line 133) — and the local density the step would use at
`(2, 2)` differs from the density over non-Exited cells only. -/
theorem C5_snapshot_counterexample :
    ((0 : Int), (1 : Int)) ∈ initialOccupied snapState.attendees ∧
    ((0 : Int), (1 : Int)) ∉ claimOccupancySnapshot snapState.attendees ∧
    ((0 : Int), (1 : Int)) ∈ initialClaimed snapState.attendees ∧
    calculate_local_density snapState.map_data 2 2 (initialOccupied snapState.attendees) ≠
      calculate_local_density snapState.map_data 2 2 (claimOccupancySnapshot snapState.attendees) := by
  refine ⟨by decide, by decide, by decide, by decide⟩

/-- **C5** (amended): the occupancy snapshot of `_move_attendees_smart` is
the set of cells of **all** attendees regardless of status (Exited
included), and the initial claimed-cell set is the set of cells of all
attendees whose goal is `None` or already reached, again regardless of
status. -/
theorem C5_snapshot_membership (attendees : List Attendee) (p : Int × Int) :
    (p ∈ initialOccupied attendees ↔ ∃ a ∈ attendees, (a.x, a.y) = p) ∧
    (p ∈ initialClaimed attendees ↔
      ∃ a ∈ attendees, (a.goal = none ∨ a.goal = some (a.x, a.y)) ∧ (a.x, a.y) = p) := by
  constructor
  · simp [initialOccupied, List.mem_map]
  · simp only [initialClaimed, List.mem_map, List.mem_filter]
    constructor
    · rintro ⟨a, ⟨ha, hcond⟩, hp⟩
      refine ⟨a, ha, ?_, hp⟩
      simpa using hcond
    · rintro ⟨a, ha, hcond, hp⟩
      refine ⟨a, ⟨ha, ?_⟩, hp⟩
      simpa using hcond

/-- **C8** fails as stated: with wait counters of 7 and 20 steps and
`scale_factor = 2`, the code's distribution bins the raw step counts and
drops the last histogram bin, giving `0/1/0` over three bins, while the
claimed minutes-histogram (3.5 and 10 minutes) is `1/0/1/0` over four
bins. -/
theorem C8_distribution_counterexample :
    wait_time_distribution histState
      = [("0-5min", 0), ("5-10min", 1), ("10-15min", 0)] ∧
    claimWaitHistogramMinutes 2 histState = [1, 0, 1, 0] := by
  refine ⟨by decide, by decide⟩

/-- **C8** (amended): for a non-empty attendee pool, the wait-time
distribution returned by `get_current_metrics` is a histogram of the raw
`total_wait_time_steps` values (steps, **not** divided by the scale
factor) over the bins `[0,5)`, `[5,10)`, `[10,15)` only; attendees with 15
or more steps of accumulated wait fall in no bin (the `[15,∞)` histogram
count is dropped by the `hist[:-1]` slice). -/
theorem C8_distribution_bins_steps (s : SimState) (h : s.attendees ≠ []) :
    wait_time_distribution s =
      [("0-5min", s.attendees.countP fun a => decide (a.total_wait_time_steps < 5)),
       ("5-10min", s.attendees.countP fun a =>
          decide (5 ≤ a.total_wait_time_steps ∧ a.total_wait_time_steps < 10)),
       ("10-15min", s.attendees.countP fun a =>
          decide (10 ≤ a.total_wait_time_steps ∧ a.total_wait_time_steps < 15))] := by
  have hne : (s.attendees.map fun a => a.total_wait_time_steps).isEmpty = false := by
    cases hA : s.attendees with
    | nil => exact absurd hA h
    | cons a l => simp
  simp only [wait_time_distribution, histogramCounts]
  rw [hne]
  simp only [Bool.false_eq_true, if_false, List.dropLast, List.zip, List.zipWith,
    List.countP_map, Function.comp]
  rfl

/-- Witness for the amended C8 at `histState` (waits 7 and 20 steps). -/
theorem C8_distribution_bins_steps_witness :
    wait_time_distribution histState =
      [("0-5min", histState.attendees.countP fun a => decide (a.total_wait_time_steps < 5)),
       ("5-10min", histState.attendees.countP fun a =>
          decide (5 ≤ a.total_wait_time_steps ∧ a.total_wait_time_steps < 10)),
       ("10-15min", histState.attendees.countP fun a =>
          decide (10 ≤ a.total_wait_time_steps ∧ a.total_wait_time_steps < 15))] :=
  C8_distribution_bins_steps histState (by decide)

/-! ## Supporting lemmas: the agent loop -/

theorem processAgent_not_processed {m : VenueMap} {total step : Nat}
    {initOcc : List (Int × Int)} {rand : Nat → Rat} {st : MoveSt} {i : Nat}
    (hget : st.attendees.get? i = none) :
    processAgent m total step initOcc rand st i = st := by
  unfold processAgent
  rw [hget]

theorem processAgent_skip {m : VenueMap} {total step : Nat}
    {initOcc : List (Int × Int)} {rand : Nat → Rat} {st : MoveSt} {i : Nat}
    {a : Attendee} (hget : st.attendees.get? i = some a)
    (h : a.goal = none ∨ a.goal = some (a.x, a.y)) :
    processAgent m total step initOcc rand st i = st := by
  rcases h with h | h
  · simp only [processAgent, hget, h]
  · simp only [processAgent, hget, h, if_true]

theorem processAgent_blocked {m : VenueMap} {total step : Nat}
    {initOcc : List (Int × Int)} {rand : Nat → Rat} {st : MoveSt} {i : Nat}
    {a : Attendee} {g : Int × Int} (hget : st.attendees.get? i = some a)
    (hgoal : a.goal = some g) (hpos : (a.x, a.y) ≠ g)
    (hb : blockedTest m initOcc rand st i a g) :
    processAgent m total step initOcc rand st i =
      { st with
        attendees := st.attendees.set i
          { a with total_wait_time_steps := a.total_wait_time_steps + 1 }
        max_wait_time := max st.max_wait_time (a.total_wait_time_steps + 1)
        next_occupied := (a.x, a.y) :: st.next_occupied } := by
  have hb' : (calculate_local_density m a.x a.y initOcc > mkRat 6 10 ∧
      rand i < calculate_local_density m a.x a.y initOcc) ∨
      find_best_neighbor m st.next_occupied (a.x, a.y) g = none := hb
  simp only [processAgent, hget, hgoal, if_neg hpos, if_pos hb']

theorem processAgent_moves {m : VenueMap} {total step : Nat}
    {initOcc : List (Int × Int)} {rand : Nat → Rat} {st : MoveSt} {i : Nat}
    {a : Attendee} {g : Int × Int} (hget : st.attendees.get? i = some a)
    (hgoal : a.goal = some g) (hpos : (a.x, a.y) ≠ g)
    (hnb : ¬ blockedTest m initOcc rand st i a g) :
    ∀ b, find_best_neighbor m st.next_occupied (a.x, a.y) g = some b →
      (processAgent m total step initOcc rand st i).next_occupied = b :: st.next_occupied ∧
      (∃ a3, (processAgent m total step initOcc rand st i).attendees.get? i = some a3 ∧
        (a3.x, a3.y) = b ∧ a3.total_wait_time_steps = a.total_wait_time_steps) ∧
      ∀ j, j ≠ i →
        (processAgent m total step initOcc rand st i).attendees.get? j = st.attendees.get? j := by
  have hnb' : ¬ ((calculate_local_density m a.x a.y initOcc > mkRat 6 10 ∧
      rand i < calculate_local_density m a.x a.y initOcc) ∨
      find_best_neighbor m st.next_occupied (a.x, a.y) g = none) := hnb
  intro b hb
  have hnb2 : ¬ (mkRat 6 10 < calculate_local_density m a.x a.y initOcc ∧
      rand i < calculate_local_density m a.x a.y initOcc ∨
      (some b : Option (Int × Int)) = none) := by
    rw [hb] at hnb'
    exact hnb'
  have hlen : i < st.attendees.length := by
    rcases List.get?_eq_some.mp hget with ⟨h, -⟩
    exact h
  refine ⟨?_, ?_, ?_⟩
  · simp only [processAgent, hget, hgoal, if_neg hpos, hb, if_neg hnb2]
  · simp only [processAgent, hget, hgoal, if_neg hpos, hb, if_neg hnb2]
    exact ⟨_, List.get?_set_eq_of_lt _ hlen, by split_ifs <;> rfl, by split_ifs <;> rfl⟩
  · intro j hj
    simp only [processAgent, hget, hgoal, if_neg hpos, hb, if_neg hnb2]
    exact List.get?_set_ne _ _ (Ne.symm hj)

theorem not_blocked_some_best {m : VenueMap} {initOcc : List (Int × Int)}
    {rand : Nat → Rat} {st : MoveSt} {i : Nat} {a : Attendee} {g : Int × Int}
    (hnb : ¬ blockedTest m initOcc rand st i a g) :
    ∃ b, find_best_neighbor m st.next_occupied (a.x, a.y) g = some b := by
  cases hfb : find_best_neighbor m st.next_occupied (a.x, a.y) g with
  | none => exact absurd (Or.inr hfb) hnb
  | some b => exact ⟨b, rfl⟩

theorem processAgent_get_ne {m : VenueMap} {total step : Nat}
    {initOcc : List (Int × Int)} {rand : Nat → Rat} {st : MoveSt} {i j : Nat}
    (hne : j ≠ i) :
    (processAgent m total step initOcc rand st i).attendees.get? j = st.attendees.get? j := by
  cases hget : st.attendees.get? i with
  | none => rw [processAgent_not_processed hget]
  | some a =>
    cases hgoal : a.goal with
    | none => rw [processAgent_skip hget (Or.inl hgoal)]
    | some g =>
      by_cases hpos : (a.x, a.y) = g
      · rw [processAgent_skip hget (Or.inr (by rw [hgoal, hpos]))]
      · by_cases hblocked : blockedTest m initOcc rand st i a g
        · rw [processAgent_blocked hget hgoal hpos hblocked]
          exact List.get?_set_ne _ _ (Ne.symm hne)
        · obtain ⟨b, hbfind⟩ := not_blocked_some_best hblocked
          exact (processAgent_moves hget hgoal hpos hblocked b hbfind).2.2 j hne

theorem evacuateAttendee_wait (m : VenueMap) (a : Attendee) :
    (evacuateAttendee m a).total_wait_time_steps = a.total_wait_time_steps := by
  unfold evacuateAttendee
  split <;> rfl

theorem leaveEarlyAttendee_wait (m : VenueMap) (a : Attendee) :
    (leaveEarlyAttendee m a).total_wait_time_steps = a.total_wait_time_steps := by
  unfold leaveEarlyAttendee
  split <;> rfl

theorem mingleAttendee_wait (m : VenueMap) (a : Attendee) :
    (mingleAttendee m a).total_wait_time_steps = a.total_wait_time_steps := by
  unfold mingleAttendee
  dsimp only
  split <;> rfl

theorem processAgent_waitsLE (m : VenueMap) (total step : Nat)
    (initOcc : List (Int × Int)) (rand : Nat → Rat) (st : MoveSt) (i : Nat) :
    ∀ j a1, st.attendees.get? j = some a1 →
      ∃ a2, (processAgent m total step initOcc rand st i).attendees.get? j = some a2 ∧
        a1.total_wait_time_steps ≤ a2.total_wait_time_steps := by
  intro j a1 hj
  by_cases hji : j = i
  · subst hji
    cases hgoal : a1.goal with
    | none =>
      rw [processAgent_skip hj (Or.inl hgoal)]
      exact ⟨a1, hj, le_refl _⟩
    | some g =>
      by_cases hpos : (a1.x, a1.y) = g
      · rw [processAgent_skip hj (Or.inr (by rw [hgoal, hpos]))]
        exact ⟨a1, hj, le_refl _⟩
      · by_cases hbl : blockedTest m initOcc rand st j a1 g
        · rw [processAgent_blocked hj hgoal hpos hbl]
          have hlen : j < st.attendees.length := by
            rcases List.get?_eq_some.mp hj with ⟨h, -⟩
            exact h
          exact ⟨_, List.get?_set_eq_of_lt _ hlen, Nat.le_succ _⟩
        · obtain ⟨b, hbfind⟩ := not_blocked_some_best hbl
          obtain ⟨-, ⟨a3, hga3, -, hw3⟩, -⟩ := processAgent_moves hj hgoal hpos hbl b hbfind
          exact ⟨a3, hga3, le_of_eq hw3.symm⟩
  · rw [processAgent_get_ne hji]
    exact ⟨a1, hj, le_refl _⟩

theorem foldl_processAgent_waitsLE (m : VenueMap) (total step : Nat)
    (initOcc : List (Int × Int)) (rand : Nat → Rat) (perm : List Nat) :
    ∀ (st : MoveSt) j a1, st.attendees.get? j = some a1 →
      ∃ a2, ((perm.foldl (processAgent m total step initOcc rand) st).attendees.get? j) = some a2 ∧
        a1.total_wait_time_steps ≤ a2.total_wait_time_steps := by
  induction perm with
  | nil => exact fun st j a1 hj => ⟨a1, hj, le_refl _⟩
  | cons i rest ih =>
    intro st j a1 hj
    obtain ⟨a2, h2, hle⟩ := processAgent_waitsLE m total step initOcc rand st i j a1 hj
    obtain ⟨a3, h3, hle3⟩ := ih _ j a2 h2
    exact ⟨a3, h3, le_trans hle hle3⟩

theorem update_goals_wait_eq (roll : Nat → Rat) (phase : String) (s : SimState) :
    ∀ j a1, s.attendees.get? j = some a1 →
      ∃ a2, (update_goals_for_phase roll phase s).attendees.get? j = some a2 ∧
        a2.total_wait_time_steps = a1.total_wait_time_steps := by
  intro j a1 hj
  unfold update_goals_for_phase
  cases hh : s.attendees.head? with
  | none => exact ⟨a1, hj, rfl⟩
  | some a0 =>
    dsimp only
    split_ifs with h1 h2
    · refine ⟨evacuateAttendee s.map_data a1, ?_, evacuateAttendee_wait _ _⟩
      rw [List.get?_map, hj]
      rfl
    · refine ⟨if roll j < mkRat 2 100 then leaveEarlyAttendee s.map_data a1
        else mingleAttendee s.map_data a1, ?_, ?_⟩
      · rw [List.get?_map, List.enum_get?, hj]
        rfl
      · split_ifs
        · exact leaveEarlyAttendee_wait _ _
        · exact mingleAttendee_wait _ _
    · exact ⟨a1, hj, rfl⟩

theorem run_lifecycle_step_waitsLE (roll rand : Nat → Rat) (perm : List Nat) (s : SimState) :
    ∀ j a1, s.attendees.get? j = some a1 →
      ∃ a2, (run_lifecycle_step roll rand perm s).attendees.get? j = some a2 ∧
        a1.total_wait_time_steps ≤ a2.total_wait_time_steps := by
  intro j a1 hj
  set s1 : SimState := { s with current_step := s.current_step + 1 } with hs1
  set s2 : SimState := update_goals_for_phase roll (get_current_phase s1) s1 with hs2
  obtain ⟨a2, h2, he⟩ := update_goals_wait_eq roll (get_current_phase s1) s1 j a1 hj
  obtain ⟨a3, h3, hle3⟩ := foldl_processAgent_waitsLE s2.map_data s2.total_attendees
    s2.current_step (initialOccupied s2.attendees) rand perm
    ⟨s2.attendees, initialClaimed s2.attendees, s2.successful_entries,
      s2.entry_progress, s2.max_wait_time⟩ j a2 h2
  exact ⟨a3, h3, le_trans (le_of_eq he.symm) hle3⟩

theorem runSteps_waitsLE (roll rand : Nat → Nat → Rat) (perm : Nat → List Nat) :
    ∀ (n : Nat) (s : SimState) j a1, s.attendees.get? j = some a1 →
      ∃ a2, (runSteps roll rand perm n s).attendees.get? j = some a2 ∧
        a1.total_wait_time_steps ≤ a2.total_wait_time_steps := by
  intro n
  induction n generalizing roll rand perm with
  | zero => exact fun s j a1 hj => ⟨a1, hj, le_refl _⟩
  | succ k ih =>
    intro s j a1 hj
    obtain ⟨a2, h2, hle⟩ := run_lifecycle_step_waitsLE (roll 0) (rand 0) (perm 0) s j a1 hj
    obtain ⟨a3, h3, hle3⟩ := ih _ _ _ _ j a2 h2
    exact ⟨a3, h3, le_trans hle hle3⟩

/-- **C7**: blocking bookkeeping.  (1) Processing agent `i` never touches
another attendee's record, so non-processed attendees' wait counters are
unchanged.  (2) For the processed attendee: if it does not attempt to move
(no goal, or at goal) the whole loop state is unchanged; if it attempts
and is blocked (density hesitation with `density > 0.6` and a draw below
the density, or no free neighbour) its `total_wait_time_steps` is
incremented by exactly 1 and nothing else of it changes; otherwise its
counter is unchanged.  (3) Across any whole run (`n` lifecycle steps with
arbitrary randomness), every attendee's counter is monotonically
non-decreasing. -/
theorem C7_wait_bookkeeping :
    (∀ (m : VenueMap) (total step : Nat) (initOcc : List (Int × Int)) (rand : Nat → Rat)
        (st : MoveSt) (i j : Nat), j ≠ i →
      (processAgent m total step initOcc rand st i).attendees.get? j = st.attendees.get? j) ∧
    (∀ (m : VenueMap) (total step : Nat) (initOcc : List (Int × Int)) (rand : Nat → Rat)
        (st : MoveSt) (i : Nat) (a : Attendee), st.attendees.get? i = some a →
      ((a.goal = none ∨ a.goal = some (a.x, a.y)) →
        processAgent m total step initOcc rand st i = st) ∧
      ∀ g, a.goal = some g → (a.x, a.y) ≠ g →
        (blockedTest m initOcc rand st i a g →
          (processAgent m total step initOcc rand st i).attendees.get? i =
            some { a with total_wait_time_steps := a.total_wait_time_steps + 1 }) ∧
        (¬ blockedTest m initOcc rand st i a g →
          ∃ a3, (processAgent m total step initOcc rand st i).attendees.get? i = some a3 ∧
            a3.total_wait_time_steps = a.total_wait_time_steps)) ∧
    (∀ (roll rand : Nat → Nat → Rat) (perm : Nat → List Nat) (n : Nat) (s : SimState)
        (i : Nat) (a : Attendee), s.attendees.get? i = some a →
      ∃ a2, (runSteps roll rand perm n s).attendees.get? i = some a2 ∧
        a.total_wait_time_steps ≤ a2.total_wait_time_steps) := by
  refine ⟨?_, ?_, ?_⟩
  · intro m total step initOcc rand st i j hne
    exact processAgent_get_ne hne
  · intro m total step initOcc rand st i a hget
    refine ⟨fun h => processAgent_skip hget h, ?_⟩
    intro g hgoal hpos
    constructor
    · intro hbl
      rw [processAgent_blocked hget hgoal hpos hbl]
      have hlen : i < st.attendees.length := by
        rcases List.get?_eq_some.mp hget with ⟨h, -⟩
        exact h
      exact List.get?_set_eq_of_lt _ hlen
    · intro hnb
      obtain ⟨b, hbfind⟩ := not_blocked_some_best hnb
      obtain ⟨-, ⟨a3, h3, -, hw⟩, -⟩ := processAgent_moves hget hgoal hpos hnb b hbfind
      exact ⟨a3, h3, hw⟩
  · intro roll rand perm n s i a hget
    exact runSteps_waitsLE roll rand perm n s i a hget

/-- Witness for C7 at `soloMoveSt`: the lone attendee has no in-bounds
neighbour, so it is blocked and its wait counter goes from 0 to exactly 1. -/
theorem C7_wait_bookkeeping_witness :
    (processAgent soloMap 1 1 [((0 : Int), (0 : Int))] (fun _ => 0) soloMoveSt 0).attendees.get? 0
      = some { soloAtt with total_wait_time_steps := soloAtt.total_wait_time_steps + 1 } :=
  ((C7_wait_bookkeeping.2.1 soloMap 1 1 [((0 : Int), (0 : Int))] (fun _ => 0) soloMoveSt 0 soloAtt
      (by decide)).2 (2, 2) (by decide) (by decide)).1
    (Or.inr (by decide))

/-! ## Supporting lemmas: claimed cells -/

theorem mem_initialClaimed {attendees : List Attendee} {a : Attendee}
    (ha : a ∈ attendees) (h : a.goal = none ∨ a.goal = some (a.x, a.y)) :
    (a.x, a.y) ∈ initialClaimed attendees := by
  unfold initialClaimed
  refine List.mem_map.mpr ⟨a, List.mem_filter.mpr ⟨ha, ?_⟩, rfl⟩
  rcases h with h | h <;> simp [h]

theorem processAgent_occ_mono (m : VenueMap) (total step : Nat)
    (initOcc : List (Int × Int)) (rand : Nat → Rat) (st : MoveSt) (i : Nat) :
    ∀ p, p ∈ st.next_occupied →
      p ∈ (processAgent m total step initOcc rand st i).next_occupied := by
  intro p hp
  cases hget : st.attendees.get? i with
  | none => rw [processAgent_not_processed hget]; exact hp
  | some a =>
    cases hgoal : a.goal with
    | none => rw [processAgent_skip hget (Or.inl hgoal)]; exact hp
    | some g =>
      by_cases hpos : (a.x, a.y) = g
      · rw [processAgent_skip hget (Or.inr (by rw [hgoal, hpos]))]; exact hp
      · by_cases hbl : blockedTest m initOcc rand st i a g
        · rw [processAgent_blocked hget hgoal hpos hbl]
          exact List.mem_cons_of_mem _ hp
        · obtain ⟨b, hbfind⟩ := not_blocked_some_best hbl
          rw [(processAgent_moves hget hgoal hpos hbl b hbfind).1]
          exact List.mem_cons_of_mem _ hp

/-- If an attendee ends a single agent-processing on a cell that was in the
claimed set when the agent was processed, it was already there before:
nobody moves **onto** a claimed cell. -/
theorem processAgent_avoid (m : VenueMap) (total step : Nat)
    (initOcc : List (Int × Int)) (rand : Nat → Rat) (st : MoveSt) (i : Nat)
    (c : Int × Int) (hc : c ∈ st.next_occupied) :
    ∀ j b2, (processAgent m total step initOcc rand st i).attendees.get? j = some b2 →
      (b2.x, b2.y) = c →
      ∃ b1, st.attendees.get? j = some b1 ∧ (b1.x, b1.y) = c := by
  intro j b2 h2 hbc
  by_cases hji : j = i
  · subst hji
    cases hget : st.attendees.get? j with
    | none =>
      rw [processAgent_not_processed hget, hget] at h2
      cases h2
    | some a =>
      cases hgoal : a.goal with
      | none =>
        rw [processAgent_skip hget (Or.inl hgoal)] at h2
        exact ⟨b2, hget.symm.trans h2, hbc⟩
      | some g =>
        by_cases hpos : (a.x, a.y) = g
        · rw [processAgent_skip hget (Or.inr (by rw [hgoal, hpos]))] at h2
          exact ⟨b2, hget.symm.trans h2, hbc⟩
        · by_cases hbl : blockedTest m initOcc rand st j a g
          · rw [processAgent_blocked hget hgoal hpos hbl] at h2
            have hlen : j < st.attendees.length := by
              rcases List.get?_eq_some.mp hget with ⟨h, -⟩
              exact h
            have hset : (st.attendees.set j
                { a with total_wait_time_steps := a.total_wait_time_steps + 1 }).get? j =
                some { a with total_wait_time_steps := a.total_wait_time_steps + 1 } :=
              List.get?_set_eq_of_lt _ hlen
            have hb2 : b2 = { a with total_wait_time_steps := a.total_wait_time_steps + 1 } :=
              Option.some.inj (h2.symm.trans hset)
            refine ⟨a, rfl, ?_⟩
            rw [hb2] at hbc
            exact hbc
          · obtain ⟨b, hbfind⟩ := not_blocked_some_best hbl
            obtain ⟨-, ⟨a3, h3, hpos3, -⟩, -⟩ := processAgent_moves hget hgoal hpos hbl b hbfind
            have hb2 : b2 = a3 := Option.some.inj (h2.symm.trans h3)
            have hbocc : b ∉ st.next_occupied := find_best_neighbor_not_occupied hbfind
            rw [hb2] at hbc
            rw [hpos3] at hbc
            exact absurd (hbc ▸ hc) hbocc
  · rw [processAgent_get_ne hji] at h2
    exact ⟨b2, h2, hbc⟩

theorem foldl_avoid (m : VenueMap) (total step : Nat)
    (initOcc : List (Int × Int)) (rand : Nat → Rat) (perm : List Nat) (c : Int × Int) :
    ∀ st : MoveSt, c ∈ st.next_occupied →
      ∀ j b2, ((perm.foldl (processAgent m total step initOcc rand) st).attendees.get? j
          = some b2) → (b2.x, b2.y) = c →
        ∃ b1, st.attendees.get? j = some b1 ∧ (b1.x, b1.y) = c := by
  induction perm with
  | nil => exact fun st hc j b2 h2 hbc => ⟨b2, h2, hbc⟩
  | cons i rest ih =>
    intro st hc j b2 h2 hbc
    obtain ⟨bmid, hmid, hmidc⟩ := ih (processAgent m total step initOcc rand st i)
      (processAgent_occ_mono m total step initOcc rand st i c hc) j b2 h2 hbc
    exact processAgent_avoid m total step initOcc rand st i c hc j bmid hmid hmidc

/-- **C10**: in every movement step, an attendee whose goal is `None` or
whose position equals its goal contributes its cell to the claimed set
before any agent is processed (line 133), and since `_find_best_neighbor`
never selects a claimed cell, no other attendee that was not already on
that cell can end the step on it.  Applied step after step, as long as such
an attendee stays on the cell, no other attendee can ever enter it. -/
theorem C10_claimed_cell_unenterable (rand : Nat → Rat) (perm : List Nat) (s : SimState)
    (i : Nat) (a : Attendee) (hget : s.attendees.get? i = some a)
    (hstay : a.goal = none ∨ a.goal = some (a.x, a.y)) :
    (a.x, a.y) ∈ initialClaimed s.attendees ∧
    ∀ j b1 b2, s.attendees.get? j = some b1 → (b1.x, b1.y) ≠ (a.x, a.y) →
      (move_attendees_smart rand perm s).attendees.get? j = some b2 →
      (b2.x, b2.y) ≠ (a.x, a.y) := by
  have hmem : a ∈ s.attendees := List.get?_mem hget
  have hclaim : (a.x, a.y) ∈ initialClaimed s.attendees := mem_initialClaimed hmem hstay
  refine ⟨hclaim, ?_⟩
  intro j b1 b2 h1 hne h2 heq
  have h2' : ((perm.foldl (processAgent s.map_data s.total_attendees s.current_step
      (initialOccupied s.attendees) rand)
      ⟨s.attendees, initialClaimed s.attendees, s.successful_entries,
        s.entry_progress, s.max_wait_time⟩).attendees.get? j) = some b2 := h2
  obtain ⟨b1', h1', hc1⟩ := foldl_avoid s.map_data s.total_attendees s.current_step
    (initialOccupied s.attendees) rand perm (a.x, a.y)
    ⟨s.attendees, initialClaimed s.attendees, s.successful_entries,
      s.entry_progress, s.max_wait_time⟩ hclaim j b2 h2' heq
  have h1'' : s.attendees.get? j = some b1' := h1'
  rw [h1] at h1''
  rw [← Option.some.inj h1''] at hc1
  exact hne hc1

/-- Witness for C10 on `rowState`: attendee 0 occupies its goal `(0, 0)`,
which is claimed up front; attendee 1, processed second, cannot enter it
and ends the step at `(0, 2)` instead. -/
theorem C10_claimed_cell_unenterable_witness :
    (move_attendees_smart (fun _ => 0) [0, 1] rowState).attendees.get? 1 = some rowAttMoved ∧
    (rowAttMoved.x, rowAttMoved.y) ≠ (rowAttGoal.x, rowAttGoal.y) :=
  ⟨by decide,
   (C10_claimed_cell_unenterable (fun _ => 0) [0, 1] rowState 0 rowAttGoal (by decide)
      (Or.inr (by decide))).2 1 rowAttMoving rowAttMoved (by decide) (by decide) (by decide)⟩

set_option maxRecDepth 100000 in
set_option maxHeartbeats 4000000 in
/-- **C3** fails on the code: in the Scenario-B instance `scenarioB`
(20 attendees scattered over the 4×4 `evacGrid`, which has exactly one
exit gate and no obstruction, with the phase forced to evacuation from
step 0), not one attendee is ever `Exited` in any of the states through 12
invocations of `run_lifecycle_step` — more than
`2 × grid_diagonal = 2·√32 ≈ 11.31`.  The first arriver at the exit is
turned into `"reached_goal"` by the arrival handling (see C1), parks on
the exit cell and keeps it claimed forever, so `Exited` stays unreachable
for every attendee. -/
theorem C3_scenarioB_never_fully_evacuates :
    (cellsWithCode evacGrid 4).length = 1 ∧
    scatterAttendees.length = 20 ∧
    ((runTrace randNinetyNine randNinetyNine identityPerm20 12 scenarioB).map
      (fun st => st.attendees.countP (fun a => a.status == "exited"))).all (· == 0) = true := by
  refine ⟨by decide, by decide, by decide⟩
